import Mathlib

/-!
Verification of the parglare grammar module (`parglare/grammar.py`).

The Python source is shallowly embedded: Python strings are Lean `String`s
(or `List Char` where slicing arithmetic matters), Python dicts are
association lists in insertion order with distinct keys, raised
`GrammarError`s are `Except.error` values of a structured error type, and
the Python `re` module (external library code) is abstracted as an oracle
function giving, for a pattern and flags, the raw result of
`re.compile(pattern, flags).match(input, pos)` as `Option String`
(the matched group, possibly empty).
-/

namespace Parglare

/-- Association-list lookup, modelling Python `dict` access (`d[k]` /
`d.get(k)` / `k in d`).  Dicts built from Python code always have distinct
keys, so first-match lookup is faithful. -/
def lookupA {β : Type} : List (String × β) → String → Option β
  | [], _ => none
  | (k', v) :: rest, k => if k' = k then some v else lookupA rest k

/-- First-some choice on options; models the `if x is None: x = y`
assignment cascade used throughout `_resolve_actions`. -/
def orTry {α : Type} : Option α → Option α → Option α
  | some v, _ => some v
  | none, y => y

/-- Structured stand-in for the `GrammarError` exceptions raised by
`grammar.py`; each constructor corresponds to one `raise GrammarError`
site and carries the names interpolated into that site's message. -/
inductive GErr where
  /-- `check_symbol_name`: Rule name "{}" is reserved. -/
  | reservedName (name : String)
  /-- `check_symbol_name`: Using dot in names is not allowed. -/
  | dotInName (name : String)
  /-- `from_struct.make_terminal`: terminal {}: unknown recognizer type {} -/
  | unknownRecognizerType (termName typ : String)
  /-- `from_struct`: production {} is already defined (as a terminal) -/
  | prodAlreadyTerminal (name : String)
  /-- `from_struct`: production {}, alternative {}: reference to undefined symbol {} -/
  | undefinedSymbol (prodName symName : String) (alt : Nat)
  /-- `from_struct`: Undefined start symbol {} -/
  | undefinedStart (name : String)
  /-- `from_struct`: __start symbol name is reserved and you can't use it -/
  | startReserved
  /-- `collect_and_unify_symbols`: Multiple definitions of terminal rule "{}" -/
  | multipleTermDefs (name : String)
  /-- `collect_and_unify_symbols`: Terminals "{}" and "{}" match the same string. -/
  | sameString (name1 name2 : String)
  /-- `collect_and_unify_symbols`: Rule "{}" already defined as terminal -/
  | alreadyTerminal (name : String)
  /-- `_fix_keyword_terminals`: KEYWORD rule must have a regex recognizer defined. -/
  | keywordNotRegex
  /-- `_connect_override_recognizers`: Terminal "{}" has no recognizer defined
  and no recognizers are given during grammar construction. -/
  | noRecognizerNoRecognizers (name : String)
  /-- `_connect_override_recognizers`: Terminal "{}" has no recognizer defined. -/
  | noRecognizer (name : String)
  /-- `resolve_symbol_by_name`: Unexisting module "{}" in reference "{}" -/
  | unknownModule (name : String)
  /-- `_connect_override_recognizers`: Recognizer given for unknown terminal "{}". -/
  | recognizerUnknownTerminal (name : String)
  /-- `_connect_override_recognizers`: Recognizer given for non-terminal "{}". -/
  | recognizerNonTerminal (name : String)
  /-- `make_multiplicity_symbol`: Repetition modifier not allowed for optional (?)
  for symbol "{}". -/
  | sepWithOptional (name : String)
deriving DecidableEq

/-- Does an `Except` computation end in a raised error? -/
def isErr {ε α : Type} : Except ε α → Bool
  | .error _ => true
  | .ok _ => false

/-- The three recognizer shapes a `Terminal` can carry after construction:
`StringRecognizer(value, ignore_case)`, `RegExRecognizer(pattern, ignore_case)`
(its compiled regex is kept abstract) and an arbitrary Python callable
(identified by name), which covers `EMPTY_recognizer`, `EOF_recognizer`,
`STOP_recognizer` and user recognizers supplied via the `recognizers`
option. -/
inductive Recognizer where
  | string (value : String) (ignoreCase : Bool)
  | regex (pattern : String) (ignoreCase : Bool)
  | callable (id : String)
deriving DecidableEq

/-- The fields of `Terminal` relevant here (`name`, `prior`, `recognizer`,
`finish`, `prefer`, `dynamic`, `keyword`).  The recognizer slot is an
`Option` because `_connect_override_recognizers` explicitly tests
`term.recognizer is None`. -/
structure Terminal where
  name : String
  prior : Nat := 10
  recognizer : Option Recognizer := none
  finish : Option Bool := none
  prefer : Bool := false
  dynamic : Bool := false
  keyword : Bool := false
deriving DecidableEq

/-- `Terminal.__init__(name, recognizer)`: the stored recognizer is the one
given, or — when `recognizer` is falsy (`None`) — `StringRecognizer(name)`
with default `ignore_case=False`.  The stored recognizer is therefore never
`None` for terminals created through the constructor. -/
def Terminal.init (name : String) (recognizer : Option Recognizer) : Terminal :=
  { name := name, recognizer := some (recognizer.getD (.string name false)) }

/-- Grammar symbols as they occur on production right-hand sides after
`from_struct` resolution: a terminal or nonterminal referenced by name, or
one of the reserved singletons `EMPTY`, `EOF`, `STOP`. -/
inductive GSym where
  | t (name : String)
  | nt (name : String)
  | empty
  | eof
  | stop
deriving DecidableEq

/-- Identity test against the `EMPTY` singleton (`symbol is EMPTY`). -/
def isEmptySym : GSym → Bool
  | .empty => true
  | _ => false

/-- `RESERVED_SYMBOL_NAMES = ['EOF', 'STOP', 'EMPTY']`. -/
def RESERVED_SYMBOL_NAMES : List String := ["EOF", "STOP", "EMPTY"]

/-- Python `c in s` on a string, as membership in its character list. -/
def containsChar (s : String) (c : Char) : Bool := s.data.contains c

/-- `check_symbol_name`: reject reserved names and names containing a dot. -/
def checkSymbolName (name : String) : Except GErr Unit :=
  if name ∈ RESERVED_SYMBOL_NAMES then .error (.reservedName name)
  else if containsChar name '.' then .error (.dotInName name)
  else .ok ()

/-- The oracle abstracting the Python `re` library: given a pattern, the
`ignore_case` flag (`re.MULTILINE` is always set and `re.IGNORECASE` is
added when the flag holds), the input string and a position, it returns
`m.group()` of `regex.match(input, pos)`, or `none` when there is no
match.  The matched group may be the empty string. -/
abbrev RegexOracle := String → Bool → String → Nat → Option String

/-- `RegExRecognizer.__call__`: `m = self.regex.match(in_str, pos)` followed
by `if m and m.group(): return m.group()` — a match whose group is the
empty string is falsy in Python, so it falls through and returns `None`. -/
def regExRecognizerCall (raw : RegexOracle) (pattern : String) (ignoreCase : Bool)
    (inStr : String) (pos : Nat) : Option String :=
  match raw pattern ignoreCase inStr pos with
  | some g => if g = "" then none else some g
  | none => none

/-- Python slice `s[a:b]` for `0 ≤ a ≤ b`, on strings as char lists. -/
def pySlice (s : List Char) (a b : Nat) : List Char := (s.take b).drop a

/-- Python `str.lower()`, modelled as per-character lowering. -/
def pyLower (s : List Char) : List Char := s.map Char.toLower

/-- `StringRecognizer.__call__`: compare `in_str[pos:pos+len(value)]`
(lowered when `ignore_case`) against `value_cmp` and return `self.value`
on success. -/
def stringRecognizerCall (value : List Char) (ignoreCase : Bool)
    (inStr : List Char) (pos : Nat) : Option (List Char) :=
  if ignoreCase then
    if pyLower (pySlice inStr pos (pos + value.length)) = pyLower value
    then some value else none
  else
    if pySlice inStr pos (pos + value.length) = value
    then some value else none

/-! ## The `Grammar.from_struct` pipeline

`Grammar.from_struct(productions_dict, terminals_dict, start, **kwargs)`
builds terminals and productions from plain dicts and then runs the
`Grammar` constructor (`collect_and_unify_symbols`, the augmented
production, `_fix_keyword_terminals`, `_connect_override_recognizers`).
Steps that are no-ops on this path (file imports, `load_actions`,
`load_recognizers`, reference resolution — `from_struct` produces resolved
symbol objects, never `Reference`s — and `_resolve_actions`, which only
fills the `action` slots and cannot raise with `fail_on_no_resolve=False`)
are omitted. -/

/-- A terminal specification value of `terminals_dict`: a well-formed
two-element tuple `(kind, value)`.  `other` covers unknown kind strings. -/
inductive TermSpec where
  | string (value : String)
  | regexp (pattern : String)
  | external (value : String)
  | other (typ : String) (value : String)
deriving DecidableEq

/-- `from_struct.make_terminal`: check the name, then dispatch on the kind.
An `external` kind passes no recognizer to `Terminal.__init__`.
`RegExRecognizer` compilation is modelled as always succeeding (the regex
oracle is total). -/
def makeTerminal (name : String) (t : TermSpec) : Except GErr Terminal :=
  match checkSymbolName name with
  | .error e => .error e
  | .ok _ =>
    match t with
    | .external _ => .ok (Terminal.init name none)
    | .string v => .ok (Terminal.init name (some (.string v false)))
    | .regexp v => .ok (Terminal.init name (some (.regex v false)))
    | .other typ _ => .error (.unknownRecognizerType name typ)

/-- The dict comprehension `{name: make_terminal(name, value) for ...}`,
evaluated in insertion order with the first raised error propagated. -/
def makeTerminals : List (String × TermSpec) → Except GErr (List (String × Terminal))
  | [] => .ok []
  | (n, t) :: rest =>
    match makeTerminal n t with
    | .error e => .error e
    | .ok tm =>
      match makeTerminals rest with
      | .error e => .error e
      | .ok ts => .ok ((n, tm) :: ts)

/-- The loop `for name in productions_dict.keys(): if name in terminals:
raise` from `from_struct`. -/
def checkProdNamesNotTerminals (prodNames termNames : List String) : Except GErr Unit :=
  match prodNames with
  | [] => .ok ()
  | n :: rest =>
    if n ∈ termNames then .error (.prodAlreadyTerminal n)
    else checkProdNamesNotTerminals rest termNames

/-- `from_struct.get_symbol`: terminals take precedence, then the
nonterminals created from `productions_dict` keys, else `None`. -/
def getSymbol (termNames ntNames : List String) (name : String) : Option GSym :=
  if name ∈ termNames then some (.t name)
  else if name ∈ ntNames then some (.nt name)
  else none

/-- A production as `from_struct` builds it: an LHS nonterminal name and a
resolved RHS.  `from_struct` passes no assoc/prior/nops overrides. -/
structure Production where
  lhs : String
  rhs : List GSym
deriving DecidableEq

/-- One alternative of a production: resolve every referenced symbol name,
failing on the first undefined one with the production name and the
alternative index. -/
def buildAlternative (termNames ntNames : List String) (prodName : String) (i : Nat) :
    List String → Except GErr (List GSym)
  | [] => .ok []
  | s :: rest =>
    match getSymbol termNames ntNames s with
    | none => .error (.undefinedSymbol prodName s i)
    | some g =>
      match buildAlternative termNames ntNames prodName i rest with
      | .error e => .error e
      | .ok gs => .ok (g :: gs)

/-- All alternatives of one production, with `enumerate` indices. -/
def buildAlternatives (termNames ntNames : List String) (prodName : String) (i : Nat) :
    List (List String) → Except GErr (List Production)
  | [] => .ok []
  | alt :: rest =>
    match buildAlternative termNames ntNames prodName i alt with
    | .error e => .error e
    | .ok gs =>
      match buildAlternatives termNames ntNames prodName (i + 1) rest with
      | .error e => .error e
      | .ok ps => .ok (⟨prodName, gs⟩ :: ps)

/-- The `for name, alternatives in productions_dict.items()` loop:
`check_symbol_name(name)` first, then the alternatives. -/
def buildProductions (termNames ntNames : List String) :
    List (String × List (List String)) → Except GErr (List Production)
  | [] => .ok []
  | (name, alts) :: rest =>
    match checkSymbolName name with
    | .error e => .error e
    | .ok _ =>
      match buildAlternatives termNames ntNames name 0 alts with
      | .error e => .error e
      | .ok ps =>
        match buildProductions termNames ntNames rest with
        | .error e => .error e
        | .ok ps' => .ok (ps ++ ps')

/-! ### `PGFile.collect_and_unify_symbols` (terminal part) and friends -/

/-- The terminal-checking loop of `collect_and_unify_symbols`: build
`terminals_by_name` and `terminals_by_str_rec`, raising on a duplicate
terminal name or on two terminals whose string recognizers hold the same
value (the error names the current terminal and the earlier one). -/
def checkTerminalsGo : List Terminal → List (String × Terminal) →
    List (String × Terminal) →
    Except GErr (List (String × Terminal) × List (String × Terminal))
  | [], byName, byStr => .ok (byName, byStr)
  | t :: rest, byName, byStr =>
    if (lookupA byName t.name).isSome then .error (.multipleTermDefs t.name)
    else
      match t.recognizer with
      | some (.string v _) =>
        match lookupA byStr v with
        | some prev => .error (.sameString t.name prev.name)
        | none => checkTerminalsGo rest (byName ++ [(t.name, t)]) (byStr ++ [(v, t)])
      | _ => checkTerminalsGo rest (byName ++ [(t.name, t)]) byStr

/-- Entry point of the terminal loop with empty maps. -/
def checkTerminals (ts : List Terminal) :
    Except GErr (List (String × Terminal) × List (String × Terminal)) :=
  checkTerminalsGo ts [] []

/-- Nonterminal collection of `collect_and_unify_symbols`: each production
LHS must not clash with a terminal name; LHS names are unified in first
occurrence order. -/
def collectNonterminals (termNames : List String) :
    List Production → List String → Except GErr (List String)
  | [], acc => .ok acc
  | p :: rest, acc =>
    if p.lhs ∈ termNames then .error (.alreadyTerminal p.lhs)
    else collectNonterminals termNames rest
      (if p.lhs ∈ acc then acc else acc ++ [p.lhs])

/-! ### `Grammar._fix_keyword_terminals` -/

/-- The per-terminal body of the `_fix_keyword_terminals` loop: a terminal
with a string recognizer whose value is fully matched by the `KEYWORD`
regex (i.e. `keyword_rec(value, 0) == value`) gets a word-boundary regex
recognizer preserving its `ignore_case`, and `keyword = True`. -/
def fixOneTerminal (raw : RegexOracle) (pat : String) (kic : Bool) (t : Terminal) :
    Terminal :=
  match t.recognizer with
  | some (.string v ic) =>
    if regExRecognizerCall raw pat kic v 0 = some v then
      { t with recognizer := some (.regex ("\\b" ++ v ++ "\\b") ic), keyword := true }
    else t
  | _ => t

/-- `_fix_keyword_terminals`: nothing to do without a `KEYWORD` terminal;
with one, its recognizer must be a regex recognizer, and then every
terminal of `self.terminals` is rewritten by `fixOneTerminal`. -/
def fixKeywordTerminals (raw : RegexOracle) (terminals : List (String × Terminal)) :
    Except GErr (List (String × Terminal)) :=
  match lookupA terminals "KEYWORD" with
  | none => .ok terminals
  | some kt =>
    match kt.recognizer with
    | some (.regex pat kic) =>
      .ok (terminals.map (fun p => (p.1, fixOneTerminal raw pat kic p.2)))
    | _ => .error .keywordNotRegex

/-! ### `Grammar._connect_override_recognizers` -/

/-- The first loop of `_connect_override_recognizers` for one terminal:
an override from the `recognizers` dict wins (the dict must be non-empty
for the membership test to be reached); otherwise a terminal whose
recognizer slot is `None` raises, with the message depending on whether
any recognizers were given at all. -/
def connectOne (recognizers : List (String × Recognizer)) (t : Terminal) :
    Except GErr Terminal :=
  if recognizers ≠ [] ∧ (lookupA recognizers t.name).isSome then
    .ok { t with recognizer := lookupA recognizers t.name }
  else
    match t.recognizer with
    | none =>
      if recognizers = [] then .error (.noRecognizerNoRecognizers t.name)
      else
        match lookupA recognizers t.name with
        | none => .error (.noRecognizer t.name)
        | some _ => .ok t
    | some _ => .ok t

/-- The first loop of `_connect_override_recognizers` over all terminals. -/
def connectAll (recognizers : List (String × Recognizer)) :
    List (String × Terminal) → Except GErr (List (String × Terminal))
  | [] => .ok []
  | (n, t) :: rest =>
    match connectOne recognizers t with
    | .error e => .error e
    | .ok t' =>
      match connectAll recognizers rest with
      | .error e => .error e
      | .ok ts => .ok ((n, t') :: ts)

/-- The unused-recognizer check: each key of the `recognizers` dict is
resolved through `symbols_by_name` (dotted names would need an import and
fail, terminals pass, nonterminals and unknown names raise). -/
def checkUnusedRecognizers (ntNames termNames : List String) :
    List (String × Recognizer) → Except GErr Unit
  | [] => .ok ()
  | (rn, _) :: rest =>
    if containsChar rn '.' then .error (.unknownModule rn)
    else if rn ∈ termNames then checkUnusedRecognizers ntNames termNames rest
    else if rn ∈ ntNames then .error (.recognizerNonTerminal rn)
    else .error (.recognizerUnknownTerminal rn)

/-- `_connect_override_recognizers`: connect/override every terminal, then
check every supplied recognizer is for a known terminal. -/
def connectOverrideRecognizers (recognizers : List (String × Recognizer))
    (ntNames : List String) (terminals : List (String × Terminal)) :
    Except GErr (List (String × Terminal)) :=
  match connectAll recognizers terminals with
  | .error e => .error e
  | .ok ts' =>
    match checkUnusedRecognizers ntNames (terminals.map (·.1)) recognizers with
    | .error e => .error e
    | .ok _ => .ok ts'

/-! ### Assembling `Grammar.__init__` / `_init_grammar` for `from_struct` -/

/-- `EMPTY = Terminal("EMPTY", EMPTY_recognizer)`. -/
def EMPTYt : Terminal := Terminal.init "EMPTY" (some (.callable "EMPTY_recognizer"))

/-- `EOF = Terminal("EOF", EOF_recognizer)`. -/
def EOFt : Terminal := Terminal.init "EOF" (some (.callable "EOF_recognizer"))

/-- `STOP = Terminal("STOP", STOP_recognizer)`. -/
def STOPt : Terminal := Terminal.init "STOP" (some (.callable "STOP_recognizer"))

/-- The grammar state observable after construction: the production list
(with the augmented production first), the terminal dict as
`_connect_override_recognizers` leaves it, and the collected nonterminal
names. -/
structure GrammarModel where
  productions : List Production
  terminals : List (String × Terminal)
  nonterminalNames : List String
deriving DecidableEq

/-- The name of the augmented start symbol `AUGSYMBOL`; the source spells
it `S` followed by an apostrophe. -/
def augmentedName : String := "S_prime"

/-- The `Grammar(...)` constructor on the `from_struct` path: collect and
check terminals, collect nonterminals, insert the augmented production
`AUGSYMBOL -> start STOP`, extend the terminal dict with the reserved
terminals, fix keyword terminals and connect/override recognizers. -/
def grammarInit (raw : RegexOracle) (productions : List Production)
    (terminalList : List Terminal) (recognizers : List (String × Recognizer)) :
    Except GErr GrammarModel :=
  match checkTerminals terminalList with
  | .error e => .error e
  | .ok (byName, _) =>
    match collectNonterminals (byName.map (·.1)) productions [] with
    | .error e => .error e
    | .ok ntNames =>
      match productions with
      | [] => .error (.undefinedStart "")
      | p0 :: _ =>
        let augmented : Production := ⟨augmentedName, [.nt p0.lhs, .stop]⟩
        let prods := augmented :: productions
        let terms := byName ++ [("EMPTY", EMPTYt), ("EOF", EOFt), ("STOP", STOPt)]
        match fixKeywordTerminals raw terms with
        | .error e => .error e
        | .ok terms' =>
          match connectOverrideRecognizers recognizers ntNames terms' with
          | .error e => .error e
          | .ok terms'' => .ok ⟨prods, terms'', ntNames⟩

/-- `Grammar.from_struct(productions_dict, terminals_dict, start,
recognizers=...)`, returning the grammar model and the synthesized start
symbol name on success. -/
def fromStruct (raw : RegexOracle)
    (productionsDict : List (String × List (List String)))
    (terminalsDict : List (String × TermSpec))
    (start : String) (recognizers : List (String × Recognizer)) :
    Except GErr (GrammarModel × String) :=
  match makeTerminals terminalsDict with
  | .error e => .error e
  | .ok terminals =>
    let termNames := terminals.map (·.1)
    match checkProdNamesNotTerminals (productionsDict.map (·.1)) termNames with
    | .error e => .error e
    | .ok _ =>
      let ntNames := productionsDict.map (·.1)
      match buildProductions termNames ntNames productionsDict with
      | .error e => .error e
      | .ok prods =>
        match getSymbol termNames ntNames start with
        | none => .error (.undefinedStart start)
        | some startSym =>
          if "__start" ∈ ntNames ∨ "__start" ∈ termNames then .error .startReserved
          else
            let startProd : Production := ⟨"__start", [startSym, .eof]⟩
            match grammarInit raw (startProd :: prods) (terminals.map (·.2)) recognizers with
            | .error e => .error e
            | .ok g => .ok (g, "__start")

/-! ## `ProductionRHS.__getitem__` and `__len__`

`ProductionRHS` subclasses `list`.  Indexing starts at the underlying
index, walks forward past `EMPTY` elements, and converts the eventual
`IndexError` into `None`; `len` subtracts the number of `EMPTY` elements
from the underlying length. -/

/-- The `while` loop of `ProductionRHS.__getitem__` from a given start:
the first element that `is not EMPTY`, or `None` when the walk runs off
the end of the underlying list. -/
def rhsGetFrom : List GSym → Option GSym
  | [] => none
  | s :: rest => if isEmptySym s then rhsGetFrom rest else some s

/-- `ProductionRHS.__getitem__(idx)` for a non-negative index. -/
def rhsGetItem (rhs : List GSym) (idx : Nat) : Option GSym :=
  rhsGetFrom (rhs.drop idx)

/-- `ProductionRHS.__len__`: `super().__len__() - self.count(EMPTY)`. -/
def rhsLen (rhs : List GSym) : Nat :=
  rhs.length - rhs.countP (fun s => isEmptySym s)

/-! ## `PGFile.make_multiplicity_symbol`

The desugaring of `?` / `+` / `*` references.  Symbols are referenced by
name here; `"EMPTY"` stands for the `EMPTY` singleton, and the registry
models `symbols_by_name` as touched by `register_symbol`. -/

/-- The `MULT_*` constants. -/
inductive Mult where
  | one
  | optional
  | oneOrMore
  | zeroOrMore
deriving DecidableEq

/-- The `name_by_mult` dict of `make_multiplicity_name`. -/
def multSuffix : Mult → String
  | .zeroOrMore => "0"
  | .oneOrMore => "1"
  | .optional => "opt"
  | .one => ""

/-- `make_multiplicity_name(symbol_name, multiplicity, separator_name)`. -/
def makeMultiplicityName (symbolName : String) (mult : Mult)
    (separatorName : Option String) : String :=
  match mult with
  | .one => symbolName
  | m =>
    symbolName ++ "_" ++ multSuffix m ++
      (match separatorName with
       | some s => "_" ++ s
       | none => "")

/-- A production created by `make_multiplicity_symbol`: LHS name, RHS
symbol names and the `nops` flag. -/
structure MProd where
  lhs : String
  rhs : List String
  nops : Bool
deriving DecidableEq

/-- A synthesized `NonTerminal`: its name, alternatives, the
`action_name` set on it (`collect`, `collect_sep`, `optional`) and
whether the inline `action` closure was installed as `grammar_action`
(only the zero-or-more symbol gets one). -/
structure MSym where
  name : String
  productions : List MProd
  actionName : Option String
  hasInlineGrammarAction : Bool
deriving DecidableEq

/-- `make_multiplicity_symbol(symbol_ref, base_symbol, separator, ...)`:
for `+`/`*`, look up or create the one-or-more symbol, then for `*`
always create the zero-or-more symbol on top of it; for `?`, reject
separators and create the optional symbol. -/
def makeMultiplicitySymbol (symbolsByName : List (String × MSym))
    (refName : String) (mult : Mult) (separator : Option String) :
    Except GErr (List (String × MSym) × MSym) :=
  if mult = .oneOrMore ∨ mult = .zeroOrMore then
    let oneName := makeMultiplicityName refName .oneOrMore separator
    let step1 : List (String × MSym) × MSym :=
      match lookupA symbolsByName oneName with
      | some s => (symbolsByName, s)
      | none =>
        let firstAlt : MProd :=
          match separator with
          | some sep => ⟨oneName, [oneName, sep, refName], false⟩
          | none => ⟨oneName, [oneName, refName], false⟩
        let s : MSym :=
          ⟨oneName, [firstAlt, ⟨oneName, [refName], false⟩],
           some (if separator.isSome then "collect_sep" else "collect"), false⟩
        (symbolsByName ++ [(oneName, s)], s)
    if mult = .zeroOrMore then
      let zeroName := makeMultiplicityName refName .zeroOrMore separator
      let s : MSym :=
        ⟨zeroName,
         [⟨zeroName, [step1.2.name], true⟩, ⟨zeroName, ["EMPTY"], false⟩],
         none, true⟩
      .ok (step1.1 ++ [(zeroName, s)], s)
    else
      .ok step1
  else
    if separator.isSome then .error (.sepWithOptional refName)
    else
      let optName := makeMultiplicityName refName .optional none
      let s : MSym :=
        ⟨optName, [⟨optName, [refName], false⟩, ⟨optName, ["EMPTY"], false⟩],
         some "optional", false⟩
      .ok (symbolsByName ++ [(optName, s)], s)

/-! ## `Grammar._resolve_actions`

The per-symbol action lookup cascade.  Names are char lists (Python
strings); the action value type is abstract.  `ov` models the
`action_overrides` dict (`.get`), `res` models
`self.resolve_action_by_name`, and `bi` models
`hasattr(actmodule, name) and getattr(actmodule, name)` over the built-in
actions module. -/

/-- A grammar symbol as seen by `_resolve_actions`: its local name, the
file import it came through (`None` for the root file), the `action_name`
given in the grammar and the `grammar_action`. -/
structure ActSym (α : Type) where
  name : List Char
  importedWith : Option (List Char)
  actionName : Option (List Char)
  grammarAction : Option α

/-- `GrammarSymbol.fqn`: prefixed by the import fqn and a dot when the
symbol was imported. -/
def symFqn {α : Type} (s : ActSym α) : List Char :=
  match s.importedWith with
  | some p => p ++ '.' :: s.name
  | none => s.name

/-- `GrammarSymbol.action_fqn`: defined only when `action_name` is truthy
(a non-empty string), qualified like `fqn`. -/
def symActionFqn {α : Type} (s : ActSym α) : Option (List Char) :=
  match s.actionName with
  | some a =>
    if a = [] then none
    else
      match s.importedWith with
      | some p => some (p ++ '.' :: a)
      | none => some a
  | none => none

/-- One lookup step of the cascade: the overrides dict first, then
`resolve_action_by_name`. -/
def lookupStep {α : Type} (ov res : List Char → Option α) (k : List Char) : Option α :=
  orTry (ov k) (res k)

/-- `_resolve_actions` for one symbol, translated clause by clause:
1. fully qualified symbol name, guarded by a dot in `fqn`;
2. fully qualified action name, guarded by `action_fqn` existing and
   containing a dot;
3. bare symbol name;
4. bare action name, guarded by `action_name` existing, with
5. the built-in actions module as its fallback inside the same guard;
finally `symbol.action = action or symbol.grammar_action`. -/
def resolveActionCode {α : Type} (ov res bi : List Char → Option α) (s : ActSym α) :
    Option α :=
  let action : Option α :=
    if (symFqn s).contains '.' then lookupStep ov res (symFqn s) else none
  let action : Option α :=
    match action with
    | some a => some a
    | none =>
      match symActionFqn s with
      | some afqn => if afqn.contains '.' then lookupStep ov res afqn else none
      | none => none
  let action : Option α :=
    match action with
    | some a => some a
    | none => lookupStep ov res s.name
  let action : Option α :=
    match action with
    | some a => some a
    | none =>
      match s.actionName with
      | some an => orTry (lookupStep ov res an) (bi an)
      | none => none
  orTry action s.grammarAction

/-- The resolution order as the specification states it: try, in order,
the fully-qualified symbol name, the fully-qualified action name, the
bare symbol name, the bare action name and the built-in actions module,
taking the first hit; otherwise keep `grammar_action`. -/
def resolveActionSpec {α : Type} (ov res bi : List Char → Option α) (s : ActSym α) :
    Option α :=
  orTry (lookupStep ov res (symFqn s))
    (orTry
      (match symActionFqn s with
       | some afqn => lookupStep ov res afqn
       | none => none)
      (orTry (lookupStep ov res s.name)
        (orTry
          (match s.actionName with
           | some an => lookupStep ov res an
           | none => none)
          (orTry
            (match s.actionName with
             | some an => bi an
             | none => none)
            s.grammarAction))))

/-! ## Helper lemmas -/

theorem orTry_assoc {α : Type} (a b c : Option α) :
    orTry (orTry a b) c = orTry a (orTry b c) := by
  cases a <;> rfl

theorem orTry_none_left {α : Type} (a : Option α) : orTry none a = a := rfl

theorem isErr_iff {α : Type} (x : Except GErr α) :
    isErr x = true ↔ ∃ e, x = .error e := by
  cases x with
  | error e => simp [isErr]
  | ok v => simp [isErr]

theorem lookupA_append {β : Type} (l1 l2 : List (String × β)) (k : String) :
    lookupA (l1 ++ l2) k = orTry (lookupA l1 k) (lookupA l2 k) := by
  induction l1 with
  | nil => rfl
  | cons p rest ih =>
    obtain ⟨k', v⟩ := p
    by_cases h : k' = k <;> simp [lookupA, h, ih, orTry]

theorem lookupA_mem {β : Type} (l : List (String × β)) (k : String) (v : β)
    (h : lookupA l k = some v) : (k, v) ∈ l := by
  induction l with
  | nil => simp [lookupA] at h
  | cons p rest ih =>
    obtain ⟨k', v'⟩ := p
    by_cases hk : k' = k
    · subst hk
      simp [lookupA] at h
      subst h
      exact List.mem_cons_self _ _
    · simp [lookupA, hk] at h
      exact List.mem_cons_of_mem _ (ih h)

theorem lookupA_map_value {β γ : Type} (l : List (String × β)) (f : β → γ) (k : String) :
    lookupA (l.map (fun p => (p.1, f p.2))) k = (lookupA l k).map f := by
  induction l with
  | nil => rfl
  | cons p rest ih =>
    obtain ⟨k', v⟩ := p
    by_cases h : k' = k <;> simp [lookupA, h, ih]

/-! ## C6 — empty regex matches at the recognizer level -/

/-- C6 counterexample.  The claim says a regex-recognizer terminal whose
regex matches the empty string at a position returns a length-0 match.
Take the raw regex behaviour of `re.compile('a*').match('b', 0)`, whose
group is the empty string: `RegExRecognizer.__call__` returns `None`
(no match), not the empty string, because `if m and m.group()` is falsy
on an empty group. -/
theorem regex_empty_match_counterexample :
    (fun (_ : String) (_ : Bool) (_ : String) (_ : Nat) =>
        some "") "a*" false "b" 0 = some "" ∧
      regExRecognizerCall (fun _ _ _ _ => some "") "a*" false "b" 0 = none :=
  ⟨rfl, rfl⟩

/-- C6 amended: whenever the compiled regex matches with an empty group at
the given position, `RegExRecognizer.__call__` reports *no match*
(returns `None`); empty matches are rejected by the recognizer. -/
theorem regex_empty_match_rejected (raw : RegexOracle) (pat : String) (ic : Bool)
    (s : String) (p : Nat) (h : raw pat ic s p = some "") :
    regExRecognizerCall raw pat ic s p = none := by
  simp [regExRecognizerCall, h]

/-- Witness for C6 amended at a concrete oracle and input. -/
theorem regex_empty_match_rejected_witness :
    regExRecognizerCall (fun _ _ _ _ => some "") "a*" false "b" 0 = none :=
  regex_empty_match_rejected (fun _ _ _ _ => some "") "a*" false "b" 0 rfl

/-! ## C7 — what a string recognizer returns -/

/-- C7 counterexample.  A case-folding string recognizer for literal `a`
run on input `A` at position 0 matches and returns `a`, while the
substring it consumed is `A`: the returned string is not the exact
consumed substring. -/
theorem string_recognizer_counterexample :
    stringRecognizerCall ['a'] true ['A'] 0 = some ['a'] ∧
      pySlice ['A'] 0 (0 + 1) = ['A'] ∧ (['a'] : List Char) ≠ ['A'] := by
  decide

/-- C7 amended: a successful string recognizer call returns the stored
literal value; the consumed substring `s[pos:pos+len(value)]` has the same
length as the returned string and equals it up to case folding, and when
`ignore_case` is off the returned string is exactly the consumed
substring. -/
theorem string_recognizer_returns_literal (value inStr : List Char) (ic : Bool)
    (pos : Nat) (r : List Char)
    (h : stringRecognizerCall value ic inStr pos = some r) :
    r = value ∧
      r.length = (pySlice inStr pos (pos + value.length)).length ∧
      pyLower r = pyLower (pySlice inStr pos (pos + value.length)) ∧
      (ic = false → r = pySlice inStr pos (pos + value.length)) := by
  unfold stringRecognizerCall at h
  cases ic with
  | true =>
    by_cases hc : pyLower (pySlice inStr pos (pos + value.length)) = pyLower value
    · simp [hc] at h
      subst h
      refine ⟨rfl, ?_, hc.symm, by simp⟩
      have hlen : (pyLower (pySlice inStr pos (pos + value.length))).length =
          (pyLower value).length := by rw [hc]
      simpa [pyLower] using hlen.symm
    · simp [hc] at h
  | false =>
    by_cases hc : pySlice inStr pos (pos + value.length) = value
    · simp [hc] at h
      subst h
      exact ⟨rfl, by rw [hc], by rw [hc], fun _ => hc.symm⟩
    · simp [hc] at h

/-- Witness for C7 amended at the concrete case-folding instance. -/
theorem string_recognizer_returns_literal_witness :
    ['a'] = ['a'] ∧
      (['a'] : List Char).length = (pySlice ['A'] 0 (0 + ['a'].length)).length ∧
      pyLower ['a'] = pyLower (pySlice ['A'] 0 (0 + ['a'].length)) ∧
      (true = false → ['a'] = pySlice ['A'] 0 (0 + ['a'].length)) :=
  string_recognizer_returns_literal ['a'] ['A'] true 0 ['a'] (by decide)

/-! ## C9 — `ProductionRHS` indexing and length -/

/-- C9 counterexample.  For `r = [EMPTY, a]` the number of non-`EMPTY`
elements is 1, so index 1 is at the end of the non-`EMPTY` elements, yet
`r[1]` returns the element `a` (the underlying element at index 1) rather
than `None`. -/
theorem production_rhs_counterexample :
    rhsLen [GSym.empty, GSym.t "a"] = 1 ∧
      rhsGetItem [GSym.empty, GSym.t "a"] 1 = some (GSym.t "a") := by
  decide

theorem rhsGetFrom_eq_find (l : List GSym) :
    rhsGetFrom l = l.find? (fun s => !isEmptySym s) := by
  induction l with
  | nil => rfl
  | cons s rest ih =>
    cases h : isEmptySym s <;> simp [rhsGetFrom, List.find?, h, ih]

/-- C9 amended: `r[i]` never raises — it returns the first non-`EMPTY`
element at underlying position `≥ i`, and `None` exactly when every
element from position `i` on is `EMPTY` (in particular whenever `i` is at
or past the underlying length); `len(r)` is the number of non-`EMPTY`
elements. -/
theorem production_rhs_total (rhs : List GSym) (i : Nat) :
    rhsGetItem rhs i = (rhs.drop i).find? (fun s => !isEmptySym s) ∧
      rhsLen rhs = rhs.countP (fun s => !isEmptySym s) ∧
      (rhsGetItem rhs i = none ↔ ∀ s ∈ rhs.drop i, isEmptySym s = true) := by
  refine ⟨rhsGetFrom_eq_find _, ?_, ?_⟩
  · unfold rhsLen
    induction rhs with
    | nil => rfl
    | cons s rest ih =>
      have hle : List.countP (fun s => isEmptySym s) rest ≤ rest.length :=
        List.countP_le_length (fun s => isEmptySym s)
      cases h : isEmptySym s <;>
        simp [List.countP_cons, h] <;> omega
  · rw [rhsGetItem, rhsGetFrom_eq_find, List.find?_eq_none]
    constructor
    · intro h s hs
      have := h s hs
      simpa using this
    · intro h s hs
      simp [h s hs]

/-! ## C2 — zero-or-more desugaring and the `nops` flag -/

/-- C2 counterexample.  Desugaring `X*` from an empty registry: the
created `X_0` has the two alternatives `X_0 -> X_1` and `X_0 -> EMPTY`,
but `nops` is set on the `X_0 -> X_1` alternative and *not* on the
epsilon alternative, contradicting the claim that the epsilon alternative
is the one marked `nops`. -/
theorem zero_or_more_nops_counterexample :
    makeMultiplicitySymbol [] "X" Mult.zeroOrMore none =
      .ok ([("X_1", ⟨"X_1", [⟨"X_1", ["X_1", "X"], false⟩, ⟨"X_1", ["X"], false⟩],
                      some "collect", false⟩),
            ("X_0", ⟨"X_0", [⟨"X_0", ["X_1"], true⟩, ⟨"X_0", ["EMPTY"], false⟩],
                      none, true⟩)],
           ⟨"X_0", [⟨"X_0", ["X_1"], true⟩, ⟨"X_0", ["EMPTY"], false⟩], none, true⟩) := by
  rfl

/-- C2 amended: for every zero-or-more reference the one-or-more symbol
`X_1` is materialized first (it is present in the resulting registry) and
a fresh nonterminal `X_0` is created with exactly the two alternatives
`X_0 -> X_1` and `X_0 -> EMPTY`, in that order; the `nops` flag is set on
the `X_0 -> X_1` alternative, while the epsilon alternative is not marked
`nops`. -/
theorem zero_or_more_desugar (reg : List (String × MSym)) (refName : String)
    (sep : Option String)
    (hwf : ∀ p ∈ reg, (p.2).name = p.1) :
    ∃ reg' s, makeMultiplicitySymbol reg refName Mult.zeroOrMore sep = .ok (reg', s) ∧
      s.name = makeMultiplicityName refName .zeroOrMore sep ∧
      s.productions =
        [⟨s.name, [makeMultiplicityName refName .oneOrMore sep], true⟩,
         ⟨s.name, ["EMPTY"], false⟩] ∧
      (lookupA reg' (makeMultiplicityName refName .oneOrMore sep)).isSome = true := by
  unfold makeMultiplicitySymbol
  simp only [reduceCtorEq, or_true, if_true, reduceIte]
  cases hlk : lookupA reg (makeMultiplicityName refName .oneOrMore sep) with
  | some s1 =>
    have hname : s1.name = makeMultiplicityName refName .oneOrMore sep :=
      hwf _ (lookupA_mem _ _ _ hlk)
    refine ⟨_, _, rfl, rfl, by rw [hname], ?_⟩
    rw [lookupA_append, hlk]
    rfl
  | none =>
    refine ⟨_, _, rfl, rfl, rfl, ?_⟩
    rw [lookupA_append, lookupA_append, hlk, orTry_none_left, lookupA]
    simp [orTry]

/-- Witness for C2 amended on the empty registry without separator. -/
theorem zero_or_more_desugar_witness :
    ∃ reg' s, makeMultiplicitySymbol [] "X" Mult.zeroOrMore none = .ok (reg', s) ∧
      s.name = makeMultiplicityName "X" .zeroOrMore none ∧
      s.productions =
        [⟨s.name, [makeMultiplicityName "X" .oneOrMore none], true⟩,
         ⟨s.name, ["EMPTY"], false⟩] ∧
      (lookupA reg' (makeMultiplicityName "X" .oneOrMore none)).isSome = true :=
  zero_or_more_desugar [] "X" none (by intro p hp; cases hp)

/-! ## C8 — action resolution order -/

theorem contains_dot_mid (p l : List Char) : (p ++ '.' :: l).contains '.' = true :=
  List.elem_eq_true_of_mem (List.mem_append_right _ (List.mem_cons_self _ _))

/-- C8: for every grammar symbol (whose own name and action name are
dot-free, as `check_symbol_name` guarantees for user symbols),
`_resolve_actions` computes exactly the first hit over the sources in the
order: fully-qualified symbol name, fully-qualified action name, bare
symbol name, bare action name, built-in actions module — falling back to
`grammar_action` when none resolves. -/
theorem action_resolution_order {α : Type} (ov res bi : List Char → Option α)
    (s : ActSym α)
    (hname : s.name.contains '.' = false)
    (haction : ∀ a, s.actionName = some a → a.contains '.' = false) :
    resolveActionCode ov res bi s = resolveActionSpec ov res bi s := by
  obtain ⟨name, imp, actName, gA⟩ := s
  cases imp with
  | some p =>
    have hdot : (p ++ '.' :: name).contains '.' = true := contains_dot_mid p name
    cases actName with
    | none =>
      cases hF : lookupStep ov res (p ++ '.' :: name) <;>
        cases hX : lookupStep ov res name <;>
          simp [resolveActionCode, resolveActionSpec, symFqn, symActionFqn,
            hdot, hF, hX, orTry]
    | some a =>
      by_cases ha : a = []
      · subst ha
        cases hF : lookupStep ov res (p ++ '.' :: name) <;>
          cases hX : lookupStep ov res name <;>
            cases hY : lookupStep ov res [] <;>
              cases hZ : bi [] <;>
                simp [resolveActionCode, resolveActionSpec, symFqn, symActionFqn,
                  hdot, hF, hX, hY, hZ, orTry]
      · have hadot : (p ++ '.' :: a).contains '.' = true := contains_dot_mid p a
        cases hF : lookupStep ov res (p ++ '.' :: name) <;>
          cases hA : lookupStep ov res (p ++ '.' :: a) <;>
            cases hX : lookupStep ov res name <;>
              cases hY : lookupStep ov res a <;>
                cases hZ : bi a <;>
                  simp [resolveActionCode, resolveActionSpec, symFqn, symActionFqn,
                    hdot, hadot, ha, hF, hA, hX, hY, hZ, orTry]
  | none =>
    have hn : '.' ∉ name := by simpa using hname
    cases actName with
    | none =>
      cases hX : lookupStep ov res name <;>
        simp [resolveActionCode, resolveActionSpec, symFqn, symActionFqn,
          hn, hX, orTry]
    | some a =>
      have hadot : a.contains '.' = false := haction a rfl
      have han : '.' ∉ a := by simpa using hadot
      by_cases ha : a = []
      · subst ha
        cases hX : lookupStep ov res name <;>
          cases hY : lookupStep ov res [] <;>
            cases hZ : bi [] <;>
              simp [resolveActionCode, resolveActionSpec, symFqn, symActionFqn,
                hn, hX, hY, hZ, orTry]
      · cases hX : lookupStep ov res name <;>
          cases hY : lookupStep ov res a <;>
            cases hZ : bi a <;>
              simp [resolveActionCode, resolveActionSpec, symFqn, symActionFqn,
                hn, han, ha, hX, hY, hZ, orTry]

/-- Witness for C8 at a concrete dot-free symbol and empty lookups. -/
theorem action_resolution_order_witness :
    resolveActionCode (α := Nat) (fun _ => none) (fun _ => none) (fun _ => none)
        ⟨['X'], none, none, none⟩ =
      resolveActionSpec (fun _ => none) (fun _ => none) (fun _ => none)
        ⟨['X'], none, none, none⟩ :=
  action_resolution_order (fun _ => none) (fun _ => none) (fun _ => none)
    ⟨['X'], none, none, none⟩ (by decide) (fun a h => by cases h)

/-! ## C3 — `KEYWORD` terminal fixing -/

/-- C3: if a terminal named `KEYWORD` is declared, then (a) when its
recognizer is not a regex recognizer, `_fix_keyword_terminals` raises the
`GrammarError`; and (b) when it is a regex recognizer, the pass succeeds
and every terminal whose string recognizer value is fully matched by the
`KEYWORD` regex (the recognizer call at position 0 returns the whole
value) ends up with recognizer `\b<value>\b` (original `ignore_case`
preserved) and `keyword = true`. -/
theorem keyword_terminals_fixing :
    (∀ (raw : RegexOracle) (ts : List (String × Terminal)) (kt : Terminal),
      lookupA ts "KEYWORD" = some kt →
      (∀ pat ic, kt.recognizer ≠ some (.regex pat ic)) →
      fixKeywordTerminals raw ts = .error .keywordNotRegex) ∧
    (∀ (raw : RegexOracle) (ts : List (String × Terminal)) (kt : Terminal)
        (pat : String) (kic : Bool) (n : String) (t : Terminal) (v : String) (ic : Bool),
      lookupA ts "KEYWORD" = some kt →
      kt.recognizer = some (.regex pat kic) →
      lookupA ts n = some t →
      t.recognizer = some (.string v ic) →
      regExRecognizerCall raw pat kic v 0 = some v →
      ∃ ts', fixKeywordTerminals raw ts = .ok ts' ∧
        lookupA ts' n =
          some { t with recognizer := some (.regex ("\\b" ++ v ++ "\\b") ic),
                        keyword := true }) := by
  constructor
  · intro raw ts kt hkt hne
    unfold fixKeywordTerminals
    rw [hkt]
    cases hrec : kt.recognizer with
    | none => simp [hrec]
    | some r =>
      cases r with
      | string v ic => simp [hrec]
      | regex pat ic => exact absurd hrec (by simpa using hne pat ic)
      | callable i => simp [hrec]
  · intro raw ts kt pat kic n t v ic hkt hrec hn ht hm
    refine ⟨(ts.map (fun p => (p.1, fixOneTerminal raw pat kic p.2))), ?_, ?_⟩
    · unfold fixKeywordTerminals
      rw [hkt]
      simp [hrec]
    · rw [lookupA_map_value, hn]
      simp only [Option.map_some']
      unfold fixOneTerminal
      simp [ht, hm]

/-- Witness for C3 at concrete inputs: a `KEYWORD` terminal with a string
recognizer raises, and with regex `\w+` (whose oracle fully matches the
literal `for`) the terminal `for` is rewritten to `\bfor\b` with
`keyword = true`. -/
theorem keyword_terminals_fixing_witness :
    fixKeywordTerminals (fun _ _ _ _ => none)
        [("KEYWORD", Terminal.init "KEYWORD" (some (.string "k" false)))] =
      .error .keywordNotRegex ∧
    (∃ ts', fixKeywordTerminals
        (fun pat _ inp pos =>
          if pat = "\\w+" ∧ inp = "for" ∧ pos = 0 then some "for" else none)
        [("KEYWORD", Terminal.init "KEYWORD" (some (.regex "\\w+" false))),
         ("for", Terminal.init "for" (some (.string "for" false)))] = .ok ts' ∧
      lookupA ts' "for" =
        some { Terminal.init "for" (some (.string "for" false)) with
               recognizer := some (.regex ("\\b" ++ "for" ++ "\\b") false),
               keyword := true }) :=
  ⟨keyword_terminals_fixing.1 (fun _ _ _ _ => none)
      [("KEYWORD", Terminal.init "KEYWORD" (some (.string "k" false)))]
      (Terminal.init "KEYWORD" (some (.string "k" false))) rfl
      (fun pat ic h => by simp [Terminal.init] at h),
   keyword_terminals_fixing.2
      (fun pat _ inp pos =>
        if pat = "\\w+" ∧ inp = "for" ∧ pos = 0 then some "for" else none)
      [("KEYWORD", Terminal.init "KEYWORD" (some (.regex "\\w+" false))),
       ("for", Terminal.init "for" (some (.string "for" false)))]
      (Terminal.init "KEYWORD" (some (.regex "\\w+" false)))
      "\\w+" false "for" (Terminal.init "for" (some (.string "for" false)))
      "for" false rfl rfl (by decide) rfl (by decide)⟩

/-! ## C5 — duplicate string recognizer values -/

theorem lookupA_append_isSome {β : Type} (l1 l2 : List (String × β)) (k : String)
    (h : (lookupA l1 k).isSome = true) : (lookupA (l1 ++ l2) k).isSome = true := by
  rw [lookupA_append]
  cases hx : lookupA l1 k with
  | none => rw [hx] at h; simp at h
  | some v => simp [hx, orTry]

/-- The invariant driving the duplicate-string error: either some pending
terminal has a string value already recorded in `terminals_by_str_rec`, or
two pending terminals share a string value. -/
def DupWitness (rest : List Terminal) (byStr : List (String × Terminal)) : Prop :=
  (∃ t ∈ rest, ∃ v ic, t.recognizer = some (.string v ic) ∧
      (lookupA byStr v).isSome = true) ∨
  (∃ l1 t1 l2 t2 l3 v ic1 ic2, rest = l1 ++ t1 :: (l2 ++ t2 :: l3) ∧
      t1.recognizer = some (.string v ic1) ∧
      t2.recognizer = some (.string v ic2))

theorem dupWitness_tail_not_string (t : Terminal) (rest : List Terminal)
    (byStr : List (String × Terminal))
    (hstr : ∀ v ic, t.recognizer ≠ some (.string v ic))
    (hdup : DupWitness (t :: rest) byStr) : DupWitness rest byStr := by
  rcases hdup with ⟨u, hu, v, ic, hurec, hvs⟩ |
    ⟨l1, t1, l2, t2, l3, v, ic1, ic2, heq, h1, h2⟩
  · rcases List.mem_cons.mp hu with rfl | hu'
    · exact absurd hurec (hstr v ic)
    · exact Or.inl ⟨u, hu', v, ic, hurec, hvs⟩
  · cases l1 with
    | nil =>
      simp only [List.nil_append, List.cons.injEq] at heq
      obtain ⟨rfl, rfl⟩ := heq
      exact absurd h1 (hstr v ic1)
    | cons x l1' =>
      simp only [List.cons_append, List.cons.injEq] at heq
      obtain ⟨rfl, rfl⟩ := heq
      exact Or.inr ⟨l1', t1, l2, t2, l3, v, ic1, ic2, rfl, h1, h2⟩

theorem dupWitness_tail_string (t : Terminal) (rest : List Terminal)
    (byStr : List (String × Terminal)) (v : String) (ic : Bool)
    (hrec : t.recognizer = some (.string v ic))
    (hbs : lookupA byStr v = none)
    (hdup : DupWitness (t :: rest) byStr) :
    DupWitness rest (byStr ++ [(v, t)]) := by
  rcases hdup with ⟨u, hu, v', ic', hurec, hvs⟩ |
    ⟨l1, t1, l2, t2, l3, v0, ic1, ic2, heq, h1, h2⟩
  · rcases List.mem_cons.mp hu with rfl | hu'
    · rw [hrec] at hurec
      simp only [Option.some.injEq, Recognizer.string.injEq] at hurec
      obtain ⟨rfl, rfl⟩ := hurec
      rw [hbs] at hvs
      simp at hvs
    · exact Or.inl ⟨u, hu', v', ic', hurec, lookupA_append_isSome _ _ _ hvs⟩
  · cases l1 with
    | nil =>
      simp only [List.nil_append, List.cons.injEq] at heq
      obtain ⟨rfl, rfl⟩ := heq
      rw [hrec] at h1
      simp only [Option.some.injEq, Recognizer.string.injEq] at h1
      obtain ⟨rfl, rfl⟩ := h1
      refine Or.inl ⟨t2, List.mem_append_right _ (List.mem_cons_self _ _),
        v, ic2, h2, ?_⟩
      rw [lookupA_append, hbs, orTry_none_left]
      simp [lookupA]
    | cons x l1' =>
      simp only [List.cons_append, List.cons.injEq] at heq
      obtain ⟨rfl, rfl⟩ := heq
      exact Or.inr ⟨l1', t1, l2, t2, l3, v0, ic1, ic2, rfl, h1, h2⟩

theorem checkTerminalsGo_dup (rest : List Terminal) :
    ∀ (byName byStr : List (String × Terminal)),
    (∀ t ∈ rest, lookupA byName t.name = none) →
    (rest.map Terminal.name).Nodup →
    DupWitness rest byStr →
    ∃ n1 n2, checkTerminalsGo rest byName byStr = .error (.sameString n1 n2) := by
  induction rest with
  | nil =>
    intro byName byStr _ _ hdup
    rcases hdup with ⟨t, ht, _⟩ | ⟨l1, t1, l2, t2, l3, v, ic1, ic2, heq, _, _⟩
    · cases ht
    · cases l1 <;> simp at heq
  | cons t rest ih =>
    intro byName byStr hnone hnodup hdup
    have hn : lookupA byName t.name = none := hnone t (List.mem_cons_self _ _)
    have hnotin : t.name ∉ rest.map Terminal.name := (List.nodup_cons.mp hnodup).1
    have hnodup' : (rest.map Terminal.name).Nodup := (List.nodup_cons.mp hnodup).2
    have hnone' : ∀ u ∈ rest, lookupA (byName ++ [(t.name, t)]) u.name = none := by
      intro u hu
      have hne : ¬t.name = u.name :=
        fun heq => hnotin (heq ▸ List.mem_map_of_mem _ hu)
      rw [lookupA_append, hnone u (List.mem_cons_of_mem _ hu)]
      simp [orTry, lookupA, hne]
    cases hrec : t.recognizer with
    | some r =>
      cases r with
      | string v ic =>
        cases hbs : lookupA byStr v with
        | some prev =>
          exact ⟨t.name, prev.name, by simp [checkTerminalsGo, hn, hrec, hbs]⟩
        | none =>
          have hrest := ih (byName ++ [(t.name, t)]) (byStr ++ [(v, t)]) hnone' hnodup'
            (dupWitness_tail_string t rest byStr v ic hrec hbs hdup)
          simpa [checkTerminalsGo, hn, hrec, hbs] using hrest
      | regex p i =>
        have hrest := ih (byName ++ [(t.name, t)]) byStr hnone' hnodup'
          (dupWitness_tail_not_string t rest byStr (by simp [hrec]) hdup)
        simpa [checkTerminalsGo, hn, hrec] using hrest
      | callable i =>
        have hrest := ih (byName ++ [(t.name, t)]) byStr hnone' hnodup'
          (dupWitness_tail_not_string t rest byStr (by simp [hrec]) hdup)
        simpa [checkTerminalsGo, hn, hrec] using hrest
    | none =>
      have hrest := ih (byName ++ [(t.name, t)]) byStr hnone' hnodup'
        (dupWitness_tail_not_string t rest byStr (by simp [hrec]) hdup)
      simpa [checkTerminalsGo, hn, hrec] using hrest

/-- C5: when two distinct terminals of the terminal list carry string
recognizers with the same string value (and terminal names are distinct,
as dict keys always are), `collect_and_unify_symbols` raises the
"match the same string" `GrammarError`, which names two terminals; no
symbol collection result is produced. -/
theorem duplicate_string_recognizers_rejected
    (l1 l2 l3 : List Terminal) (t1 t2 : Terminal) (v : String) (ic1 ic2 : Bool)
    (h1 : t1.recognizer = some (.string v ic1))
    (h2 : t2.recognizer = some (.string v ic2))
    (hnodup : ((l1 ++ t1 :: (l2 ++ t2 :: l3)).map Terminal.name).Nodup) :
    ∃ n1 n2, checkTerminals (l1 ++ t1 :: (l2 ++ t2 :: l3)) =
      .error (.sameString n1 n2) :=
  checkTerminalsGo_dup (l1 ++ t1 :: (l2 ++ t2 :: l3)) [] []
    (fun _ _ => rfl) hnodup
    (Or.inr ⟨l1, t1, l2, t2, l3, v, ic1, ic2, rfl, h1, h2⟩)

/-- Witness for C5: terminals `B` and `d` both recognize the string `d`
(the scenario of the repository's own regression test). -/
theorem duplicate_string_recognizers_rejected_witness :
    ∃ n1 n2, checkTerminals
        [Terminal.init "B" (some (.string "d" false)),
         Terminal.init "d" (some (.string "d" false))] =
      .error (.sameString n1 n2) :=
  duplicate_string_recognizers_rejected [] [] []
    (Terminal.init "B" (some (.string "d" false)))
    (Terminal.init "d" (some (.string "d" false)))
    "d" false false rfl rfl (by decide)

/-! ## C1 — external terminals without a supplied recognizer -/

/-- C1 counterexample.  Constructing a grammar with terminal `t` of kind
`external` and no `recognizers` option does *not* raise: `from_struct`
succeeds and the terminal silently holds the `Terminal.__init__` default
recognizer, a string recognizer on its own name. -/
theorem external_terminal_counterexample :
    (fromStruct (fun _ _ _ _ => none) [("s", [["t"]])] [("t", TermSpec.external "")]
        "s" []).map (fun g => lookupA g.1.terminals "t") =
      .ok (some { name := "t", prior := 10, recognizer := some (.string "t" false),
                  finish := none, prefer := false, dynamic := false,
                  keyword := false }) := by
  rfl

/-- C1 amended: an `external` terminal declaration never raises for a
missing recognizer; `make_terminal` returns a terminal whose recognizer
slot was silently filled by the `Terminal.__init__` default — a string
recognizer on the terminal's own name — so the `None`-recognizer check of
`_connect_override_recognizers` can never fire for it. -/
theorem external_terminal_default_recognizer (name v : String)
    (h : checkSymbolName name = .ok ()) :
    makeTerminal name (.external v) =
      .ok { name := name, prior := 10, recognizer := some (.string name false),
            finish := none, prefer := false, dynamic := false, keyword := false } := by
  unfold makeTerminal
  rw [h]
  rfl

/-- Witness for C1 amended at the concrete terminal name `t`. -/
theorem external_terminal_default_recognizer_witness :
    makeTerminal "t" (.external "") =
      .ok { name := "t", prior := 10, recognizer := some (.string "t" false),
            finish := none, prefer := false, dynamic := false, keyword := false } :=
  external_terminal_default_recognizer "t" "" rfl

/-! ## C4 / C10 — reserved and dotted names are rejected by `from_struct` -/

theorem makeTerminals_err_of_bad (td : List (String × TermSpec)) (n : String)
    (s : TermSpec) (hmem : (n, s) ∈ td)
    (hbad : isErr (checkSymbolName n) = true) :
    isErr (makeTerminals td) = true := by
  induction td with
  | nil => cases hmem
  | cons p rest ih =>
    obtain ⟨n0, t0⟩ := p
    cases hmt : makeTerminal n0 t0 with
    | error e => simp [makeTerminals, hmt, isErr]
    | ok tm =>
      rcases List.mem_cons.mp hmem with heq | hmem'
      · injection heq with h1 h2
        subst h1
        subst h2
        obtain ⟨e, he⟩ := (isErr_iff _).mp hbad
        unfold makeTerminal at hmt
        rw [he] at hmt
        simp at hmt
      · have h := ih hmem'
        cases hrest : makeTerminals rest with
        | error e => simp [makeTerminals, hmt, hrest, isErr]
        | ok ts => rw [hrest] at h; simp [isErr] at h

theorem makeTerminals_keys (td : List (String × TermSpec))
    (ts : List (String × Terminal)) (h : makeTerminals td = .ok ts) :
    ts.map (·.1) = td.map (·.1) := by
  induction td generalizing ts with
  | nil => cases h; rfl
  | cons p rest ih =>
    obtain ⟨n0, t0⟩ := p
    cases hmt : makeTerminal n0 t0 with
    | error e => rw [makeTerminals, hmt] at h; cases h
    | ok tm =>
      cases hrest : makeTerminals rest with
      | error e => rw [makeTerminals, hmt, hrest] at h; cases h
      | ok ts' =>
        rw [makeTerminals, hmt, hrest] at h
        cases h
        simp [ih ts' hrest]

theorem buildProductions_err_of_bad (tn nn : List String)
    (pd : List (String × List (List String))) (n : String)
    (alts : List (List String)) (hmem : (n, alts) ∈ pd)
    (hbad : isErr (checkSymbolName n) = true) :
    isErr (buildProductions tn nn pd) = true := by
  induction pd with
  | nil => cases hmem
  | cons p rest ih =>
    obtain ⟨n0, alts0⟩ := p
    cases hc : checkSymbolName n0 with
    | error e => simp [buildProductions, hc, isErr]
    | ok u =>
      rcases List.mem_cons.mp hmem with heq | hmem'
      · injection heq with h1 h2
        subst h1
        subst h2
        rw [hc] at hbad
        simp [isErr] at hbad
      · cases hba : buildAlternatives tn nn n0 0 alts0 with
        | error e => simp [buildProductions, hc, hba, isErr]
        | ok ps =>
          have h := ih hmem'
          cases hbp : buildProductions tn nn rest with
          | error e => simp [buildProductions, hc, hba, hbp, isErr]
          | ok ps' => rw [hbp] at h; simp [isErr] at h

theorem fromStruct_err_term (raw : RegexOracle)
    (pd : List (String × List (List String))) (td : List (String × TermSpec))
    (start : String) (recs : List (String × Recognizer)) (n : String)
    (s : TermSpec) (hmem : (n, s) ∈ td)
    (hbad : isErr (checkSymbolName n) = true) :
    isErr (fromStruct raw pd td start recs) = true := by
  have h := makeTerminals_err_of_bad td n s hmem hbad
  cases hmt : makeTerminals td with
  | error e => simp [fromStruct, hmt, isErr]
  | ok ts => rw [hmt] at h; simp [isErr] at h

theorem fromStruct_err_prod (raw : RegexOracle)
    (pd : List (String × List (List String))) (td : List (String × TermSpec))
    (start : String) (recs : List (String × Recognizer)) (n : String)
    (alts : List (List String)) (hmem : (n, alts) ∈ pd)
    (hbad : isErr (checkSymbolName n) = true) :
    isErr (fromStruct raw pd td start recs) = true := by
  cases hmt : makeTerminals td with
  | error e => simp [fromStruct, hmt, isErr]
  | ok ts =>
    cases hcp : checkProdNamesNotTerminals (pd.map (·.1)) (ts.map (·.1)) with
    | error e => simp [fromStruct, hmt, hcp, isErr]
    | ok u =>
      have h := buildProductions_err_of_bad (ts.map (·.1)) (pd.map (·.1)) pd n alts
        hmem hbad
      cases hbp : buildProductions (ts.map (·.1)) (pd.map (·.1)) pd with
      | error e => simp [fromStruct, hmt, hcp, hbp, isErr]
      | ok ps => rw [hbp] at h; simp [isErr] at h

theorem fromStruct_err_start_name (raw : RegexOracle)
    (pd : List (String × List (List String))) (td : List (String × TermSpec))
    (start : String) (recs : List (String × Recognizer))
    (hmem : "__start" ∈ td.map (·.1) ∨ "__start" ∈ pd.map (·.1)) :
    isErr (fromStruct raw pd td start recs) = true := by
  cases hmt : makeTerminals td with
  | error e => simp [fromStruct, hmt, isErr]
  | ok ts =>
    have hkeys := makeTerminals_keys td ts hmt
    cases hcp : checkProdNamesNotTerminals (pd.map (·.1)) (ts.map (·.1)) with
    | error e => simp [fromStruct, hmt, hcp, isErr]
    | ok u =>
      cases hbp : buildProductions (ts.map (·.1)) (pd.map (·.1)) pd with
      | error e => simp [fromStruct, hmt, hcp, hbp, isErr]
      | ok ps =>
        cases hgs : getSymbol (ts.map (·.1)) (pd.map (·.1)) start with
        | none => simp [fromStruct, hmt, hcp, hbp, hgs, isErr]
        | some g =>
          have hcond : "__start" ∈ pd.map (·.1) ∨ "__start" ∈ ts.map (·.1) := by
            rcases hmem with h | h
            · exact Or.inr (by rw [hkeys]; exact h)
            · exact Or.inl h
          simp only [fromStruct, hmt, hcp, hbp, hgs]
          rw [if_pos hcond]
          rfl

/-- C4: a name from `{EOF, STOP, EMPTY, __start}` used as a terminal name
or as a production LHS name makes `from_struct` raise a `GrammarError`;
no grammar is returned. -/
theorem reserved_names_rejected (raw : RegexOracle)
    (pd : List (String × List (List String))) (td : List (String × TermSpec))
    (start : String) (recs : List (String × Recognizer)) (name : String)
    (hres : name ∈ (["EOF", "STOP", "EMPTY", "__start"] : List String))
    (hmem : name ∈ td.map (·.1) ∨ name ∈ pd.map (·.1)) :
    ∃ e, fromStruct raw pd td start recs = .error e := by
  rw [← isErr_iff]
  have herr : isErr (checkSymbolName name) = true →
      isErr (fromStruct raw pd td start recs) = true := by
    intro hbad
    rcases hmem with h | h
    · obtain ⟨a, ha, heq⟩ := List.mem_map.mp h
      refine fromStruct_err_term raw pd td start recs name a.2 ?_ hbad
      rw [← heq]
      exact ha
    · obtain ⟨a, ha, heq⟩ := List.mem_map.mp h
      refine fromStruct_err_prod raw pd td start recs name a.2 ?_ hbad
      rw [← heq]
      exact ha
  have hres' : name = "EOF" ∨ name = "STOP" ∨ name = "EMPTY" ∨ name = "__start" := by
    simpa using hres
  rcases hres' with rfl | rfl | rfl | rfl
  · exact herr (by decide)
  · exact herr (by decide)
  · exact herr (by decide)
  · exact fromStruct_err_start_name raw pd td start recs hmem

/-- Witness for C4 with `EOF` declared as a terminal name. -/
theorem reserved_names_rejected_witness :
    ∃ e, fromStruct (fun _ _ _ _ => none) [] [("EOF", TermSpec.string "x")]
        "EOF" [] = .error e :=
  reserved_names_rejected (fun _ _ _ _ => none) [] [("EOF", TermSpec.string "x")]
    "EOF" [] "EOF" (by decide) (Or.inl (by decide))

/-- C10: any terminal name or production LHS name containing a dot makes
`from_struct` raise a `GrammarError`; dotted names cannot be user-declared
through `from_struct`. -/
theorem dotted_names_rejected (raw : RegexOracle)
    (pd : List (String × List (List String))) (td : List (String × TermSpec))
    (start : String) (recs : List (String × Recognizer)) (name : String)
    (hdot : containsChar name '.' = true)
    (hmem : name ∈ td.map (·.1) ∨ name ∈ pd.map (·.1)) :
    ∃ e, fromStruct raw pd td start recs = .error e := by
  rw [← isErr_iff]
  have hbad : isErr (checkSymbolName name) = true := by
    unfold checkSymbolName
    by_cases hr : name ∈ RESERVED_SYMBOL_NAMES
    · simp [hr, isErr]
    · simp [hr, hdot, isErr]
  rcases hmem with h | h
  · obtain ⟨a, ha, heq⟩ := List.mem_map.mp h
    refine fromStruct_err_term raw pd td start recs name a.2 ?_ hbad
    rw [← heq]
    exact ha
  · obtain ⟨a, ha, heq⟩ := List.mem_map.mp h
    refine fromStruct_err_prod raw pd td start recs name a.2 ?_ hbad
    rw [← heq]
    exact ha

/-- Witness for C10 with the dotted terminal name `a.b`. -/
theorem dotted_names_rejected_witness :
    ∃ e, fromStruct (fun _ _ _ _ => none) [] [("a.b", TermSpec.string "x")]
        "a.b" [] = .error e :=
  dotted_names_rejected (fun _ _ _ _ => none) [] [("a.b", TermSpec.string "x")]
    "a.b" [] "a.b" (by decide) (Or.inl (by decide))

end Parglare
